import Mathlib

/-!
Shallow embedding of the sensorview core (camera, LIDAR, GPS ingestion and
the geodetic tile engine) together with theorems checking the natural
language specification against the code.

Modelling conventions:
* A TCP stream is a finite list of byte values (`List ℕ`, each < 256); the
  end of the list is the point where the peer closed the connection.
* `f32` values travel as their 4 raw wire bytes; we keep them as 32-bit
  patterns (`ℕ` below `2^32`).  Reading a little-endian `f32` from the wire
  is bit-identical to the `u32` read, so round-trip claims are stated on
  bit patterns.
* Fallible Rust code (`io::Result`) becomes a sum of an outcome value;
  a Rust `panic!` (from `unwrap`/`expect`, or from an overflow-checked
  `u32` subtraction in a debug build) is a distinct `panicked` outcome.
* The external JPEG / PNG decoders and the HTTP tile fetch are oracles
  passed as function parameters (`Option`-valued: `none` = failure).
* Channel sends (`crossbeam::Sender::send`) are modelled as appending to an
  output list; the receiving window lives for the whole session, so the
  send itself does not fail.
-/

namespace SensorView

/-- Error kinds of the error taxonomy (spec section 7): `framing` is the
`io::ErrorKind::UnexpectedEof` a short read produces, `codec` a payload
that fails to decode, `io` any other socket error, `disconnected` a channel
whose consumer is gone. -/
inductive WireError
  | framing
  | codec
  | ioError
  | disconnected
deriving DecidableEq, Repr

/-- Result of running a handler loop to completion on a finite stream:
`ok` (the Rust `Ok(())`), `err e` (the Rust `Err(e)` propagated with `?`),
or `panicked` (the process aborted via `unwrap`/`expect`/overflow). -/
inductive Outcome
  | ok
  | err (e : WireError)
  | panicked
deriving DecidableEq, Repr

/-- Value of a 4-byte little-endian unsigned integer, as read by
`byteorder::ReadBytesExt::read_u32::<LittleEndian>`. -/
def le32 (b0 b1 b2 b3 : ℕ) : ℕ :=
  b0 + 2 ^ 8 * b1 + 2 ^ 16 * b2 + 2 ^ 24 * b3

/-- The 4 little-endian bytes of a value below `2^32` (the encoding used by
the senders the decoders are paired with). -/
def enc32 (n : ℕ) : List ℕ :=
  [n % 2 ^ 8, n / 2 ^ 8 % 2 ^ 8, n / 2 ^ 16 % 2 ^ 8, n / 2 ^ 24 % 2 ^ 8]

/-- `read_u32::<LittleEndian>` / `read_f32::<LittleEndian>` on a stream:
consumes exactly 4 bytes, or fails with `UnexpectedEof` (`none`) when the
stream closes first. -/
def readU32LE : List ℕ → Option (ℕ × List ℕ)
  | b0 :: b1 :: b2 :: b3 :: rest => some (le32 b0 b1 b2 b3, rest)
  | _ => none

theorem le32_enc32 (n : ℕ) (h : n < 2 ^ 32) :
    le32 (n % 2 ^ 8) (n / 2 ^ 8 % 2 ^ 8) (n / 2 ^ 16 % 2 ^ 8) (n / 2 ^ 24 % 2 ^ 8) = n := by
  unfold le32
  omega

theorem readU32LE_enc32 (n : ℕ) (h : n < 2 ^ 32) (rest : List ℕ) :
    readU32LE (enc32 n ++ rest) = some (n, rest) := by
  simp only [enc32, List.cons_append, List.nil_append, readU32LE, Option.some.injEq,
    Prod.mk.injEq]
  refine ⟨?_, trivial⟩
  unfold le32
  omega

theorem readU32LE_length {s t : List ℕ} {v : ℕ} (h : readU32LE s = some (v, t)) :
    t.length + 4 = s.length := by
  match s with
  | b0 :: b1 :: b2 :: b3 :: rest =>
    simp only [readU32LE, Option.some.injEq, Prod.mk.injEq] at h
    simp [← h.2]
  | [] => simp [readU32LE] at h
  | [_] => simp [readU32LE] at h
  | [_, _] => simp [readU32LE] at h
  | [_, _, _] => simp [readU32LE] at h

/-! ## Camera (src/camera.rs) -/

namespace Camera

/-- Allowed camera formats (only MJPEG is actually decoded). -/
inductive VideoFormat
  | MJPEG
  | H264
deriving DecidableEq, Repr

/-- One decoded camera frame as pushed onto the channel. -/
structure CameraData where
  image_bytes : List ℕ
  width : ℕ
  height : ℕ
deriving DecidableEq, Repr

/-- The JPEG decoder of the `image` crate, abstracted: given the payload
bytes it either yields `(width, height, pixel bytes)` or fails.  The source
wraps both `JPEGDecoder::new` and `read_image` in `expect`, so a failing
decode is a panic of the handler thread. -/
abbrev JpegOracle := List ℕ → Option (ℕ × ℕ × List ℕ)

/-- `Camera::handle_mjpeg`: repeatedly read a 4-byte little-endian length,
read exactly that many payload bytes, decode them as JPEG and send the
frame.  Returns the frames sent together with how the loop ended.  A short
read surfaces as `UnexpectedEof` (`WireError.framing`); an undecodable
payload hits `expect` and panics. -/
def handle_mjpeg (jpeg : JpegOracle) : List ℕ → List CameraData × Outcome
  | b0 :: b1 :: b2 :: b3 :: rest =>
    let size := le32 b0 b1 b2 b3
    if h : size ≤ rest.length then
      match jpeg (rest.take size) with
      | none => ([], .panicked)
      | some (w, ht, img) =>
        let r := handle_mjpeg jpeg (rest.drop size)
        (⟨img, w, ht⟩ :: r.1, r.2)
    else ([], .err .framing)
  | _ => ([], .err .framing)
termination_by s => s.length
decreasing_by
  simp only [List.length_drop, List.length_cons]
  omega

/-- `Camera::handle_image_stream`: dispatch on the configured format; the
H264 branch is a stub returning `Ok(())`. -/
def handle_image_stream (jpeg : JpegOracle) (fmt : VideoFormat) (s : List ℕ) :
    List CameraData × Outcome :=
  match fmt with
  | .MJPEG => handle_mjpeg jpeg s
  | .H264 => ([], .ok)

/-- `Camera::start`: the accept loop.  Each accepted connection is handled
to completion on the listener thread; `self.handle_image_stream(stream?, f)?`
propagates a handler error out of the `for` loop, ending the thread.  The
input is the list of connections the peer(s) open, each one a byte stream;
the result is all frames sent and `some o` when the loop exited with `o`
(`none` means every connection was handled with `Ok` and the listener is
still accepting). -/
def start (jpeg : JpegOracle) (fmt : VideoFormat) : List (List ℕ) → List CameraData × Option Outcome
  | [] => ([], none)
  | c :: cs =>
    let r := handle_image_stream jpeg fmt c
    match r.2 with
    | .ok =>
      let rest := start jpeg fmt cs
      (r.1 ++ rest.1, rest.2)
    | .err e => (r.1, some (.err e))
    | .panicked => (r.1, some .panicked)

end Camera

/-! ## LIDAR (src/lidar.rs) -/

namespace Lidar

/-- `for _ in 0..scan_size { read_f32 angle; read_f32 distance }`: read `k`
(angle, distance) pairs, each component 4 little-endian bytes, failing with
`UnexpectedEof` if the stream closes mid-scan. -/
def readPairs : ℕ → List ℕ → Option (List (ℕ × ℕ) × List ℕ)
  | 0, s => some ([], s)
  | k + 1, b0 :: b1 :: b2 :: b3 :: c0 :: c1 :: c2 :: c3 :: rest =>
    match readPairs k rest with
    | none => none
    | some (ps, s) => some ((le32 b0 b1 b2 b3, le32 c0 c1 c2 c3) :: ps, s)
  | _ + 1, _ => none

theorem readPairs_length {k : ℕ} {s t : List ℕ} {ps : List (ℕ × ℕ)}
    (h : readPairs k s = some (ps, t)) : t.length + 8 * k = s.length ∧ ps.length = k := by
  induction k generalizing s ps t with
  | zero =>
    simp only [readPairs, Option.some.injEq, Prod.mk.injEq] at h
    simp [← h.1, ← h.2]
  | succ k ih =>
    match s with
    | b0 :: b1 :: b2 :: b3 :: c0 :: c1 :: c2 :: c3 :: rest =>
      simp only [readPairs] at h
      match hr : readPairs k rest with
      | none => rw [hr] at h; simp at h
      | some (ps', t') =>
        rw [hr] at h
        simp only [Option.some.injEq, Prod.mk.injEq] at h
        obtain ⟨hl, hp⟩ := ih hr
        constructor
        · have := h.2 ▸ hl
          simp only [List.length_cons]
          omega
        · rw [← h.1]
          simp [hp]
    | [] => simp [readPairs] at h
    | [_] => simp [readPairs] at h
    | [_, _] => simp [readPairs] at h
    | [_, _, _] => simp [readPairs] at h
    | [_, _, _, _] => simp [readPairs] at h
    | [_, _, _, _, _] => simp [readPairs] at h
    | [_, _, _, _, _, _] => simp [readPairs] at h
    | [_, _, _, _, _, _, _] => simp [readPairs] at h

theorem readPairs_short {k : ℕ} {s : List ℕ} (h : s.length < 8 * k) :
    readPairs k s = none := by
  induction k generalizing s with
  | zero => omega
  | succ k ih =>
    match s with
    | b0 :: b1 :: b2 :: b3 :: c0 :: c1 :: c2 :: c3 :: rest =>
      have : rest.length < 8 * k := by
        simp only [List.length_cons] at h
        omega
      simp [readPairs, ih this]
    | [] => simp [readPairs]
    | [_] => simp [readPairs]
    | [_, _] => simp [readPairs]
    | [_, _, _] => simp [readPairs]
    | [_, _, _, _] => simp [readPairs]
    | [_, _, _, _, _] => simp [readPairs]
    | [_, _, _, _, _, _] => simp [readPairs]
    | [_, _, _, _, _, _, _] => simp [readPairs]

/-- `Lidar::handle_lidar_stream`: read a 4-byte little-endian count, then
that many (angle, distance) `f32` pairs, send the scan, repeat.  Samples
are kept as (angle bits, distance bits) pairs.  Returns the scans sent and
how the loop ended. -/
def handle_lidar_stream (s : List ℕ) : List (List (ℕ × ℕ)) × Outcome :=
  match h1 : readU32LE s with
  | none => ([], .err .framing)
  | some (k, rest) =>
    match h2 : readPairs k rest with
    | none => ([], .err .framing)
    | some (scan, s') =>
      let r := handle_lidar_stream s'
      (scan :: r.1, r.2)
termination_by s.length
decreasing_by
  have hl1 := readU32LE_length h1
  have hl2 := (readPairs_length h2).1
  omega

/-- `Lidar::start`: accept loop, identical in shape to the camera one; a
handler error propagates with `?` and ends the listener thread. -/
def start : List (List ℕ) → List (List (ℕ × ℕ)) × Option Outcome
  | [] => ([], none)
  | c :: cs =>
    let r := handle_lidar_stream c
    match r.2 with
    | .ok =>
      let rest := start cs
      (r.1 ++ rest.1, rest.2)
    | .err e => (r.1, some (.err e))
    | .panicked => (r.1, some .panicked)

/-- Wire encoding of one variable-grammar scan: little-endian count then
the little-endian (angle, distance) pairs. -/
def encPairs : List (ℕ × ℕ) → List ℕ
  | [] => []
  | p :: ps => enc32 p.1 ++ enc32 p.2 ++ encPairs ps

def encScan (ps : List (ℕ × ℕ)) : List ℕ :=
  enc32 ps.length ++ encPairs ps

end Lidar

/-! ## GPS wire decoder (src/gps.rs, `Gps`) -/

namespace Gps

/-- `Gps::handle_gps`: repeatedly read latitude then longitude, each a
4-byte little-endian `f32` (kept as bit patterns), and send the fix.  A
stream that closes before a full fix is read surfaces `UnexpectedEof`. -/
def handle_gps : List ℕ → List (ℕ × ℕ) × Outcome
  | b0 :: b1 :: b2 :: b3 :: c0 :: c1 :: c2 :: c3 :: rest =>
    let r := handle_gps rest
    ((le32 b0 b1 b2 b3, le32 c0 c1 c2 c3) :: r.1, r.2)
  | _ => ([], .err .framing)

/-- `Gps::start`: accept loop, identical in shape to the camera one. -/
def start : List (List ℕ) → List (ℕ × ℕ) × Option Outcome
  | [] => ([], none)
  | c :: cs =>
    let r := handle_gps c
    match r.2 with
    | .ok =>
      let rest := start cs
      (r.1 ++ rest.1, rest.2)
    | .err e => (r.1, some (.err e))
    | .panicked => (r.1, some .panicked)

end Gps

/-! ## Controller telemetry encoder (src/controller.rs) -/

namespace Controller

/-- `GpEvent`: the gilrs event with the device-internal `Code` dropped.
Button and axis identifiers are abstracted to numeric codes and `f32`
values to their bit patterns. -/
inductive GpEvent
  | buttonPressed (btn : ℕ)
  | buttonRepeated (btn : ℕ)
  | buttonReleased (btn : ℕ)
  | buttonChanged (btn : ℕ) (val : ℕ)
  | axisChanged (axis : ℕ) (val : ℕ)
  | connected
  | disconnected
  | dropped
deriving DecidableEq, Repr

/-- The connect loop of `Controller::start`:
`loop { match TcpStream::connect(ip) { Ok(c) => break c, Err(_) => sleep(10s) } }`.
`conn k` tells whether the `k`-th connect attempt succeeds.  `fuel` bounds
how many attempts we observe; the loop itself is unbounded, so running out
of fuel (`none`) means the loop is still retrying — it never exits with an
error.  On success the result is the total seconds slept, 10 per failed
attempt. -/
def connect_retry (conn : ℕ → Bool) : ℕ → ℕ → Option ℕ
  | 0, _ => none
  | fuel + 1, k => if conn k then some (10 * k) else connect_retry conn fuel (k + 1)

/-- The send loop of `Controller::start` for a batch of polled events:
serialize (`serde_cbor::to_vec`, abstracted by `ser`), write the 4-byte
little-endian length, the payload, and flush.  `wr i` tells whether the
socket writes for the `i`-th event succeed; on the first failure the `?`
propagates immediately: nothing further is written and the session ends
with the error. -/
def session (ser : GpEvent → List ℕ) (wr : ℕ → Bool) : List GpEvent → ℕ → List (List ℕ) × Outcome
  | [], _ => ([], .ok)
  | e :: es, i =>
    if wr i then
      let msg := enc32 (ser e).length ++ ser e
      let r := session ser wr es (i + 1)
      (msg :: r.1, r.2)
    else ([], .err .ioError)

end Controller

/-! ## Concrete oracles used by witnesses and counterexamples -/

/-- A JPEG decoder that rejects every payload. -/
def jpegNone : Camera.JpegOracle := fun _ => none

/-- A JPEG decoder that decodes every payload as a 1×1 RGB image. -/
def jpegTrivial : Camera.JpegOracle := fun _ => some (1, 1, [0, 0, 0])

/-! ## Helper lemmas on the camera decoder -/

namespace Camera

theorem handle_mjpeg_short (jpeg : JpegOracle) {s : List ℕ} (h : s.length < 4) :
    handle_mjpeg jpeg s = ([], .err .framing) := by
  match s with
  | [] => simp [handle_mjpeg]
  | [_] => simp [handle_mjpeg]
  | [_, _] => simp [handle_mjpeg]
  | [_, _, _] => simp [handle_mjpeg]
  | _ :: _ :: _ :: _ :: _ => simp only [List.length_cons] at h; omega

theorem handle_mjpeg_midPayload (jpeg : JpegOracle) {b0 b1 b2 b3 : ℕ} {rest : List ℕ}
    (h : rest.length < le32 b0 b1 b2 b3) :
    handle_mjpeg jpeg (b0 :: b1 :: b2 :: b3 :: rest) = ([], .err .framing) := by
  rw [handle_mjpeg]
  rw [dif_neg (by omega)]

theorem handle_mjpeg_step (jpeg : JpegOracle) {b0 b1 b2 b3 w ht : ℕ}
    {rest img : List ℕ} (hlen : le32 b0 b1 b2 b3 ≤ rest.length)
    (hj : jpeg (rest.take (le32 b0 b1 b2 b3)) = some (w, ht, img)) :
    handle_mjpeg jpeg (b0 :: b1 :: b2 :: b3 :: rest) =
      (⟨img, w, ht⟩ :: (handle_mjpeg jpeg (rest.drop (le32 b0 b1 b2 b3))).1,
        (handle_mjpeg jpeg (rest.drop (le32 b0 b1 b2 b3))).2) := by
  rw [handle_mjpeg]
  rw [dif_pos hlen, hj]

theorem handle_mjpeg_bad_payload (jpeg : JpegOracle) {b0 b1 b2 b3 : ℕ}
    {rest : List ℕ} (hlen : le32 b0 b1 b2 b3 ≤ rest.length)
    (hbad : jpeg (rest.take (le32 b0 b1 b2 b3)) = none) :
    handle_mjpeg jpeg (b0 :: b1 :: b2 :: b3 :: rest) = ([], .panicked) := by
  rw [handle_mjpeg]
  rw [dif_pos hlen, hbad]

/-- A camera stream that closes mid-frame: after zero or more fully decoded
frames, the stream either ends inside the 4-byte length word or before the
announced payload length has arrived. -/
inductive Truncated (jpeg : JpegOracle) : List ℕ → Prop
  | midLen {s : List ℕ} : 0 < s.length → s.length < 4 → Truncated jpeg s
  | midPayload {b0 b1 b2 b3 : ℕ} {rest : List ℕ} :
      rest.length < le32 b0 b1 b2 b3 → Truncated jpeg (b0 :: b1 :: b2 :: b3 :: rest)
  | nextFrame {b0 b1 b2 b3 : ℕ} {rest : List ℕ} :
      le32 b0 b1 b2 b3 ≤ rest.length →
      (jpeg (rest.take (le32 b0 b1 b2 b3))).isSome →
      Truncated jpeg (rest.drop (le32 b0 b1 b2 b3)) →
      Truncated jpeg (b0 :: b1 :: b2 :: b3 :: rest)

end Camera

/-- Claim C3: for every camera stream that closes mid-length-prefix or
mid-payload (after any number of fully decoded frames), the decode loop of
`Camera::handle_mjpeg` returns the short-read error (`Framing` in the
spec's taxonomy, `io::ErrorKind::UnexpectedEof` in the code) to its caller;
the loop is total (it cannot hang) and this path never panics. -/
theorem camera_truncated_stream_returns_framing (jpeg : Camera.JpegOracle)
    (s : List ℕ) (h : Camera.Truncated jpeg s) :
    (Camera.handle_mjpeg jpeg s).2 = .err .framing := by
  induction h with
  | midLen h0 h4 => rw [Camera.handle_mjpeg_short jpeg h4]
  | midPayload hshort => rw [Camera.handle_mjpeg_midPayload jpeg hshort]
  | nextFrame hlen hsome _h ih =>
    obtain ⟨⟨w, ht, img⟩, hj⟩ := Option.isSome_iff_exists.mp hsome
    rw [Camera.handle_mjpeg_step jpeg hlen hj]
    exact ih

/-- Witness for C3 at a concrete input: the length prefix announces 1 byte
but the stream closes with none of it delivered. -/
theorem camera_truncated_stream_returns_framing_witness :
    (Camera.handle_mjpeg jpegNone [1, 0, 0, 0]).2 = .err .framing :=
  camera_truncated_stream_returns_framing jpegNone [1, 0, 0, 0]
    (Camera.Truncated.midPayload (by norm_num [le32]))

/-- Counterexample for C4: a payload that is fully read (1 byte, as the
length prefix announced) but rejected by the JPEG decoder does not produce
a `Codec` error — `JPEGDecoder::new(..).expect(..)` panics instead. -/
theorem camera_codec_counterexample :
    Camera.handle_mjpeg jpegNone [1, 0, 0, 0, 255] = ([], .panicked) ∧
    (Camera.handle_mjpeg jpegNone [1, 0, 0, 0, 255]).2 ≠ .err .codec := by
  have h : Camera.handle_mjpeg jpegNone [1, 0, 0, 0, 255] = ([], .panicked) :=
    Camera.handle_mjpeg_bad_payload jpegNone (by norm_num [le32]) rfl
  exact ⟨h, by rw [h]; simp⟩

/-- Claim C4 (amended): on a fully read payload the JPEG decoder rejects,
`Camera::handle_mjpeg` panics (both decoder construction and `read_image`
are wrapped in `expect`), terminating the whole listener thread, instead of
returning a `Codec` error to the caller. -/
theorem camera_bad_payload_panics (jpeg : Camera.JpegOracle) (b0 b1 b2 b3 : ℕ)
    (rest : List ℕ) (hlen : le32 b0 b1 b2 b3 ≤ rest.length)
    (hbad : jpeg (rest.take (le32 b0 b1 b2 b3)) = none) :
    Camera.handle_mjpeg jpeg (b0 :: b1 :: b2 :: b3 :: rest) = ([], .panicked) :=
  Camera.handle_mjpeg_bad_payload jpeg hlen hbad

/-- Witness for the amended C4 at a concrete input. -/
theorem camera_bad_payload_panics_witness :
    Camera.handle_mjpeg jpegNone [2, 0, 0, 0, 9, 9] = ([], .panicked) :=
  camera_bad_payload_panics jpegNone 2 0 0 0 [9, 9] (by norm_num [le32]) rfl

/-! ## Helper lemmas on the LIDAR decoder -/

namespace Lidar

theorem readPairs_encPairs (ps : List (ℕ × ℕ)) (t : List ℕ)
    (hp : ∀ p ∈ ps, p.1 < 2 ^ 32 ∧ p.2 < 2 ^ 32) :
    readPairs ps.length (encPairs ps ++ t) = some (ps, t) := by
  induction ps with
  | nil => simp [encPairs, readPairs]
  | cons p ps ih =>
    have hhead := hp p (List.mem_cons_self p ps)
    have htail : ∀ q ∈ ps, q.1 < 2 ^ 32 ∧ q.2 < 2 ^ 32 :=
      fun q hq => hp q (List.mem_cons_of_mem p hq)
    simp only [encPairs, enc32, List.cons_append, List.length_cons, List.append_assoc,
      List.append_eq, List.nil_append, readPairs]
    rw [ih htail]
    rw [le32_enc32 p.1 hhead.1, le32_enc32 p.2 hhead.2]

theorem handle_lidar_stream_nil : handle_lidar_stream [] = ([], .err .framing) := by
  rw [handle_lidar_stream]
  split
  · rfl
  · next heq => simp [readU32LE] at heq

/-- A stream whose leading count announces more pairs than the remaining
bytes can hold fails with the short-read error and publishes nothing. -/
theorem handle_lidar_stream_short {b0 b1 b2 b3 : ℕ} {rest : List ℕ}
    (h : rest.length < 8 * le32 b0 b1 b2 b3) :
    handle_lidar_stream (b0 :: b1 :: b2 :: b3 :: rest) = ([], .err .framing) := by
  rw [handle_lidar_stream]
  split
  · next heq => simp [readU32LE] at heq
  · next k rest' heq =>
    simp only [readU32LE, Option.some.injEq, Prod.mk.injEq] at heq
    obtain ⟨hk, hr⟩ := heq
    split
    · rfl
    · next scan s' heq2 =>
      rw [← hr, ← hk, readPairs_short h] at heq2
      exact absurd heq2 (by simp)

/-- The big-endian IEEE-754 bytes of the `f32` value 1.0, repeated `n`
times: the fixed-grammar wire form of a scan whose distances are all one
meter (`n` = 360 for a full scan). -/
def beOnes : ℕ → List ℕ
  | 0 => []
  | n + 1 => 63 :: 128 :: 0 :: 0 :: beOnes n

theorem beOnes_length (n : ℕ) : (beOnes n).length = 4 * n := by
  induction n with
  | zero => simp [beOnes]
  | succ n ih => simp [beOnes, ih]; omega

end Lidar

/-- Claim C5: for every variable-grammar LIDAR input — little-endian count
`K` followed by `K` little-endian (angle, distance) `f32` pairs — the
decode loop publishes exactly one scan whose sample sequence is, bit for
bit, the written pairs in order (then hits end of stream).  `f32` values
are identified with their 32-bit wire patterns, so bit equality is value
equality. -/
theorem lidar_variable_grammar_roundtrip (ps : List (ℕ × ℕ))
    (hK : ps.length < 2 ^ 32)
    (hp : ∀ p ∈ ps, p.1 < 2 ^ 32 ∧ p.2 < 2 ^ 32) :
    Lidar.handle_lidar_stream (Lidar.encScan ps) = ([ps], .err .framing) := by
  have h1 : readU32LE (Lidar.encScan ps) = some (ps.length, Lidar.encPairs ps) :=
    readU32LE_enc32 ps.length hK (Lidar.encPairs ps)
  have h2 : Lidar.readPairs ps.length (Lidar.encPairs ps) = some (ps, []) := by
    simpa using Lidar.readPairs_encPairs ps [] hp
  rw [Lidar.handle_lidar_stream]
  split
  · next heq => rw [h1] at heq; exact absurd heq (by simp)
  · next k rest' heq =>
    rw [h1] at heq
    simp only [Option.some.injEq, Prod.mk.injEq] at heq
    obtain ⟨hk, hr⟩ := heq
    subst hk
    subst hr
    split
    · next heq2 => rw [h2] at heq2; exact absurd heq2 (by simp)
    · next scan s' heq2 =>
      rw [h2] at heq2
      simp only [Option.some.injEq, Prod.mk.injEq] at heq2
      obtain ⟨hs, hs'⟩ := heq2
      subst hs
      subst hs'
      simp [Lidar.handle_lidar_stream_nil]

/-- Witness for C5 at the spec's example shape: `K = 2` and two (angle,
distance) pairs (bit patterns 3, 10, 1, 5). -/
theorem lidar_variable_grammar_roundtrip_witness :
    Lidar.handle_lidar_stream (Lidar.encScan [(3, 10), (1, 5)]) =
      ([[(3, 10), (1, 5)]], .err .framing) :=
  lidar_variable_grammar_roundtrip [(3, 10), (1, 5)] (by norm_num) (by decide)

/-- Counterexample for C6: the decoder has no fixed-grammar mode at all.
Feeding it a full fixed-grammar scan — 360 big-endian floats, here all
1.0 (bytes 63, 128, 0, 0) — does not yield a 360-sample scan: the first
four bytes are misread as the little-endian count 32831, the remaining
1436 bytes cannot hold 32831 pairs, and the loop fails with a short-read
framing error, publishing no scan. -/
theorem lidar_fixed_grammar_counterexample :
    Lidar.handle_lidar_stream (Lidar.beOnes 360) = ([], .err .framing) := by
  show Lidar.handle_lidar_stream (63 :: 128 :: 0 :: 0 :: Lidar.beOnes 359) = _
  refine Lidar.handle_lidar_stream_short ?_
  rw [Lidar.beOnes_length]
  norm_num [le32]

/-- Claim C6 (amended): only the variable grammar is implemented and there
is no configuration choice.  A fixed-grammar input (big-endian floats with
no count word) is parsed as variable grammar: its first four bytes are
read as a little-endian count, and whenever eight times that count exceeds
the remaining length — as for 360 distances of 1.0, whose first float
misreads as count 32831 — the decode fails with a short-read framing error
and no scan is published. -/
theorem lidar_no_fixed_grammar_mode (d0 d1 d2 d3 : ℕ) (rest : List ℕ)
    (h : rest.length < 8 * le32 d0 d1 d2 d3) :
    Lidar.handle_lidar_stream (d0 :: d1 :: d2 :: d3 :: rest) = ([], .err .framing) :=
  Lidar.handle_lidar_stream_short h

/-- Witness for the amended C6: the tail of the all-ones fixed-grammar
scan (359 further big-endian floats) is far shorter than the 32831
misread pairs require. -/
theorem lidar_no_fixed_grammar_mode_witness :
    Lidar.handle_lidar_stream (63 :: 128 :: 0 :: 0 :: Lidar.beOnes 359) =
      ([], .err .framing) :=
  lidar_no_fixed_grammar_mode 63 128 0 0 (Lidar.beOnes 359)
    (by rw [Lidar.beOnes_length]; norm_num [le32])

/-! ## Listener behaviour (C1) -/

/-- Claim C1 (amended): in each sensor listener the handler runs on the
listener thread itself and `self.handle_*(stream?)?` propagates a handler
error out of the `for stream in listener.incoming()` loop.  So when a
connection's decode loop exits with a decode/framing/IO error, the whole
listener thread terminates with that error: the frames already sent remain
sent, and subsequent connections are never accepted or handled. -/
theorem listener_dies_with_handler_error (jpeg : Camera.JpegOracle)
    (c1 c2 c3 : List ℕ) (cs1 cs2 cs3 : List (List ℕ)) (e1 e2 e3 : WireError)
    (h1 : (Camera.handle_mjpeg jpeg c1).2 = .err e1)
    (h2 : (Lidar.handle_lidar_stream c2).2 = .err e2)
    (h3 : (Gps.handle_gps c3).2 = .err e3) :
    Camera.start jpeg .MJPEG (c1 :: cs1) =
      ((Camera.handle_mjpeg jpeg c1).1, some (.err e1)) ∧
    Lidar.start (c2 :: cs2) = ((Lidar.handle_lidar_stream c2).1, some (.err e2)) ∧
    Gps.start (c3 :: cs3) = ((Gps.handle_gps c3).1, some (.err e3)) := by
  refine ⟨?_, ?_, ?_⟩
  · cases hr : Camera.handle_mjpeg jpeg c1 with
    | mk frames out =>
      rw [hr] at h1
      simp only at h1
      subst h1
      simp [Camera.start, Camera.handle_image_stream, hr]
  · cases hr : Lidar.handle_lidar_stream c2 with
    | mk scans out =>
      rw [hr] at h2
      simp only at h2
      subst h2
      simp [Lidar.start, hr]
  · cases hr : Gps.handle_gps c3 with
    | mk fixes out =>
      rw [hr] at h3
      simp only at h3
      subst h3
      simp [Gps.start, hr]

/-- Witness for the amended C1: one truncated connection per sensor kind
ends each listener with a framing error. -/
theorem listener_dies_with_handler_error_witness :
    Camera.start jpegNone .MJPEG [[1, 0, 0, 0]] =
      ((Camera.handle_mjpeg jpegNone [1, 0, 0, 0]).1, some (.err .framing)) ∧
    Lidar.start [[1, 0, 0, 0]] =
      ((Lidar.handle_lidar_stream [1, 0, 0, 0]).1, some (.err .framing)) ∧
    Gps.start [[0]] = ((Gps.handle_gps [0]).1, some (.err .framing)) :=
  listener_dies_with_handler_error jpegNone [1, 0, 0, 0] [1, 0, 0, 0] [0] [] [] []
    .framing .framing .framing
    (by rw [Camera.handle_mjpeg_midPayload jpegNone (by norm_num [le32])])
    (by rw [Lidar.handle_lidar_stream_short (by norm_num [le32])])
    rfl

/-- Counterexample for C1: a listener does not keep accepting after a
handler error.  The first camera connection is truncated (framing error);
the second carries one complete, decodable frame, and decoding it alone
would publish that frame — yet the listener run over both connections
publishes nothing and exits with the first connection's error, so the
second connection was never handled. -/
theorem listener_counterexample :
    Camera.start jpegTrivial .MJPEG [[1, 0, 0, 0], [1, 0, 0, 0, 255]] =
      ([], some (.err .framing)) ∧
    Camera.handle_mjpeg jpegTrivial [1, 0, 0, 0, 255] =
      ([⟨[0, 0, 0], 1, 1⟩], .err .framing) := by
  constructor
  · have hc : Camera.handle_mjpeg jpegTrivial [1, 0, 0, 0] = ([], .err .framing) :=
      Camera.handle_mjpeg_midPayload jpegTrivial (by norm_num [le32])
    simp [Camera.start, Camera.handle_image_stream, hc]
  · have hstep := @Camera.handle_mjpeg_step jpegTrivial 1 0 0 0 1 1 [255] [0, 0, 0]
      (by norm_num [le32]) rfl
    have hone : le32 1 0 0 0 = 1 := by norm_num [le32]
    rw [hstep, hone]
    simp [@Camera.handle_mjpeg_short jpegTrivial [] (by simp)]

/-! ## Controller behaviour (C7) -/

namespace Controller

theorem connect_retry_none (conn : ℕ → Bool) (hnever : ∀ m, conn m = false) :
    ∀ fuel k, connect_retry conn fuel k = none := by
  intro fuel
  induction fuel with
  | zero => intro k; rfl
  | succ fuel ih => intro k; simp [connect_retry, hnever k, ih (k + 1)]

theorem connect_retry_first_success (conn : ℕ → Bool) :
    ∀ (n fuel k : ℕ), (∀ m, m < n → conn (k + m) = false) → conn (k + n) = true →
      n < fuel → connect_retry conn fuel k = some (10 * (k + n)) := by
  intro n
  induction n with
  | zero =>
    intro fuel k _ hok hfuel
    match fuel, hfuel with
    | fuel + 1, _ =>
      have h0 : conn k = true := by simpa using hok
      simp [connect_retry, h0]
  | succ n ih =>
    intro fuel k hbefore hok hfuel
    match fuel, hfuel with
    | fuel + 1, hfuel =>
      have h0 : conn k = false := by simpa using hbefore 0 (Nat.succ_pos n)
      have hb : ∀ m, m < n → conn (k + 1 + m) = false := by
        intro m hm
        have := hbefore (m + 1) (by omega)
        simpa [Nat.add_assoc, Nat.add_comm 1 m] using this
      have hk : conn (k + 1 + n) = true := by
        have := hok
        simpa [Nat.add_assoc, Nat.add_comm 1 n] using this
      have hrec := ih fuel (k + 1) hb hk (by omega)
      simp only [connect_retry, h0]
      rw [if_neg (by simp)]
      rw [hrec]
      congr 1
      omega

theorem session_stops_at_failed_write (ser : GpEvent → List ℕ) (wr : ℕ → Bool) :
    ∀ (events : List GpEvent) (b i : ℕ), (∀ j, j < i → wr (b + j) = true) →
      wr (b + i) = false → i < events.length →
      session ser wr events b =
        ((events.take i).map (fun e => enc32 (ser e).length ++ ser e), .err .ioError) := by
  intro events
  induction events with
  | nil => intro b i _ _ hi; simp at hi
  | cons e es ih =>
    intro b i hbefore hfail hi
    match i with
    | 0 =>
      have h0 : wr b = false := by simpa using hfail
      simp [session, h0]
    | i + 1 =>
      have h0 : wr b = true := by simpa using hbefore 0 (Nat.succ_pos i)
      have hb : ∀ j, j < i → wr (b + 1 + j) = true := by
        intro j hj
        have := hbefore (j + 1) (by omega)
        simpa [Nat.add_assoc, Nat.add_comm 1 j] using this
      have hf : wr (b + 1 + i) = false := by
        have := hfail
        simpa [Nat.add_assoc, Nat.add_comm 1 i] using this
      have hlen : i < es.length := by simpa using hi
      simp [session, h0, ih (b + 1) i hb hf hlen]

end Controller

/-- Claim C7: on start the controller retries the outbound TCP connect
with a fixed 10-second sleep per failed attempt, unboundedly — the loop
never exits with an error (`none` means it is still retrying) and returns
exactly when an attempt succeeds, having slept 10 seconds per failure.
After the connection is up, the first failed socket write ends the session:
the `?` propagates the error out of the loop, nothing after the failing
event is written, and no reconnect is attempted. -/
theorem controller_connect_retry_and_fatal_write
    (conn conn2 : ℕ → Bool) (ser : Controller.GpEvent → List ℕ) (wr : ℕ → Bool)
    (events : List Controller.GpEvent) (n fuel i f k : ℕ)
    (hbefore : ∀ m, m < n → conn m = false) (hok : conn n = true) (hfuel : n < fuel)
    (hnever : ∀ m, conn2 m = false)
    (hwr : ∀ j, j < i → wr j = true) (hfail : wr i = false) (hi : i < events.length) :
    Controller.connect_retry conn fuel 0 = some (10 * n) ∧
    Controller.connect_retry conn2 f k = none ∧
    Controller.session ser wr events 0 =
      ((events.take i).map (fun e => enc32 (ser e).length ++ ser e), .err .ioError) := by
  refine ⟨?_, Controller.connect_retry_none conn2 hnever f k, ?_⟩
  · have := Controller.connect_retry_first_success conn n fuel 0
      (by simpa using hbefore) (by simpa using hok) hfuel
    simpa using this
  · exact Controller.session_stops_at_failed_write ser wr events 0 i
      (by simpa using hwr) (by simpa using hfail) hi

/-- Witness for C7: the third connect attempt succeeds after two failures
(20 seconds of backoff); a never-succeeding connect oracle keeps the loop
retrying; and a write failure on the second event stops the session after
the first event's length-prefixed payload. -/
theorem controller_connect_retry_and_fatal_write_witness :
    Controller.connect_retry (fun m => m == 2) 4 0 = some 20 ∧
    Controller.connect_retry (fun _ => false) 3 5 = none ∧
    Controller.session (fun _ => [7]) (fun j => j == 0)
      [.connected, .dropped] 0 = ([[1, 0, 0, 0, 7]], .err .ioError) := by
  exact controller_connect_retry_and_fatal_write (fun m => m == 2) (fun _ => false)
    (fun _ => [7]) (fun j => j == 0) [.connected, .dropped] 2 4 1 3 5
    (by decide) (by decide) (by decide) (fun _ => rfl)
    (by decide) (by decide) (by decide)

/-! ## Geodetic tile engine (src/gps.rs, `GpsWindow`)

The geodesy works on `f32`; we model the arithmetic over `ℝ` (the
idealisation of the floating-point formulas) while keeping the integer
casts exactly as the source performs them: `.floor() as u32` is a floor
followed by a saturating cast, `as u32` on an `i32` wraps, and `u32`
subtraction panics on underflow in a debug build. -/

/-- Rust `as u32` applied to a (floored) float: saturates into `[0, 2^32)`. -/
def toU32 (z : ℤ) : ℤ := max 0 (min z (2 ^ 32 - 1))

/-- Rust `as u32` applied to an `i32`: wraps modulo `2^32`. -/
def wrap32 (z : ℤ) : ℤ := z % 2 ^ 32

/-- Rust `as i32` applied to a (floored) float: saturates into
`[-2^31, 2^31)`. -/
def toI32 (z : ℤ) : ℤ := max (-(2 ^ 31)) (min z (2 ^ 31 - 1))

theorem toU32_nonneg (z : ℤ) : 0 ≤ toU32 z := le_max_left 0 _

theorem toU32_le (z : ℤ) : toU32 z ≤ 2 ^ 32 - 1 := by
  unfold toU32
  rcases le_total z (2 ^ 32 - 1) with h | h
  · simp [min_eq_left h]
  · simp [min_eq_right h]

theorem toU32_of_mem {z : ℤ} (h0 : 0 ≤ z) (h1 : z ≤ 2 ^ 32 - 1) : toU32 z = z := by
  unfold toU32
  rw [min_eq_left h1, max_eq_right h0]

theorem toU32_idem (z : ℤ) : toU32 (toU32 z) = toU32 z :=
  toU32_of_mem (toU32_nonneg z) (toU32_le z)

theorem toU32_pos {z : ℤ} (h : 0 < z) : 0 < toU32 z := by
  unfold toU32
  rcases le_total z (2 ^ 32 - 1) with hm | hm
  · rw [min_eq_left hm]; omega
  · rw [min_eq_right hm]; norm_num

/-- The forward Web Mercator tile formula for the x axis, gps.rs line 137:
`self.x_tile = ((lon + 180.0) / 360.0 * n as f32).floor() as u32` with
`n = 1 << zoom`. -/
noncomputable def xTileOf (zoom : ℕ) (lon : ℝ) : ℤ :=
  toU32 ⌊(lon + 180) / 360 * 2 ^ zoom⌋

/-- The forward Web Mercator tile formula for the y axis, gps.rs line 139:
`self.y_tile = ((1.0 - (lat_rad.tan().asinh()) / PI) / 2.0 * n).floor() as u32`. -/
noncomputable def yTileOf (zoom : ℕ) (lat : ℝ) : ℤ :=
  toU32 ⌊(1 - Real.arsinh (Real.tan (lat * Real.pi / 180)) / Real.pi) / 2 * 2 ^ zoom⌋

/-- The inverse formula for a tile's western longitude, gps.rs line 158:
`self.nw_lon = nw_xtile as f32 / n * 360.0 - 180.0`. -/
noncomputable def nwLonOf (zoom : ℕ) (x : ℤ) : ℝ := (x : ℝ) / 2 ^ zoom * 360 - 180

/-- The inverse formula for a tile's northern latitude, gps.rs lines
159-160: `let n = PI - 2.0 * PI * nw_ytile as f32 / n;`
`self.nw_lat = 180.0 / PI * (0.5 * (n.exp() - (-n).exp())).atan()`. -/
noncomputable def nwLatOf (zoom : ℕ) (y : ℤ) : ℝ :=
  180 / Real.pi *
    Real.arctan (0.5 * (Real.exp (Real.pi - 2 * Real.pi * (y : ℝ) / 2 ^ zoom) -
      Real.exp (-(Real.pi - 2 * Real.pi * (y : ℝ) / 2 ^ zoom))))

theorem xTileOf_nwLonOf (zoom : ℕ) (x : ℤ) : xTileOf zoom (nwLonOf zoom x) = toU32 x := by
  unfold xTileOf nwLonOf
  have hn : ((2 : ℝ) ^ zoom) ≠ 0 := by positivity
  have harg : ((x : ℝ) / 2 ^ zoom * 360 - 180 + 180) / 360 * 2 ^ zoom = (x : ℝ) := by
    field_simp
    ring
  rw [harg, Int.floor_intCast]

theorem yTileOf_nwLatOf (zoom : ℕ) (y : ℤ) : yTileOf zoom (nwLatOf zoom y) = toU32 y := by
  unfold yTileOf nwLatOf
  have hpi : Real.pi ≠ 0 := Real.pi_ne_zero
  have hn : ((2 : ℝ) ^ zoom) ≠ 0 := by positivity
  have hsinh : (0.5 : ℝ) * (Real.exp (Real.pi - 2 * Real.pi * (y : ℝ) / 2 ^ zoom) -
      Real.exp (-(Real.pi - 2 * Real.pi * (y : ℝ) / 2 ^ zoom))) =
      Real.sinh (Real.pi - 2 * Real.pi * (y : ℝ) / 2 ^ zoom) := by
    rw [Real.sinh_eq]; ring
  have hrad : 180 / Real.pi *
      Real.arctan (Real.sinh (Real.pi - 2 * Real.pi * (y : ℝ) / 2 ^ zoom)) * Real.pi / 180 =
      Real.arctan (Real.sinh (Real.pi - 2 * Real.pi * (y : ℝ) / 2 ^ zoom)) := by
    field_simp
  rw [hsinh, hrad, Real.tan_arctan, Real.arsinh_sinh]
  have harg : (1 - (Real.pi - 2 * Real.pi * (y : ℝ) / 2 ^ zoom) / Real.pi) / 2 * 2 ^ zoom =
      (y : ℝ) := by
    field_simp
    ring
  rw [harg, Int.floor_intCast]

/-- Claim C8: for every GPS fix and zoom level, the tile index obtained by
the forward Web Mercator tile formula of `query_osm` round-trips: applying
the inverse formula (the northwestern-corner recovery of gps.rs lines
158-160) to the resulting tile index and mapping that corner forward again
yields the same tile index, on both axes.  Stated over the real-number
idealisation of the `f32` formulas. -/
theorem gps_tile_roundtrip (lat lon : ℝ) (zoom : ℕ) :
    xTileOf zoom (nwLonOf zoom (xTileOf zoom lon)) = xTileOf zoom lon ∧
    yTileOf zoom (nwLatOf zoom (yTileOf zoom lat)) = yTileOf zoom lat := by
  constructor
  · rw [xTileOf_nwLonOf]
    unfold xTileOf
    rw [toU32_idem]
  · rw [yTileOf_nwLatOf]
    unfold yTileOf
    rw [toU32_idem]

/-! ## The GPS window state machine -/

/-- One GPS fix as decoded from the wire (`f32` degrees idealised as `ℝ`). -/
structure GpsData where
  lat : ℝ
  lon : ℝ

/-- One fetched and PNG-decoded map tile. -/
structure OsmTile where
  data : List ℕ
  width : ℕ
  height : ℕ

/-- The `GpsWindow` state (texture handle omitted: the GUI layer is out of
scope).  `image` is the `RgbImage` pixel buffer; `points` the session
track of plotted pixel coordinates; `x_tile`/`y_tile` are `u32` values
kept in `[0, 2^32)`. -/
structure GpsWindow where
  image : List ℕ
  points : List (ℤ × ℤ)
  query_lat : ℝ
  query_lon : ℝ
  lat_meters : ℝ
  lon_meters : ℝ
  nw_lat : ℝ
  nw_lon : ℝ
  x_tile : ℤ
  y_tile : ℤ
  zoom : ℕ
  width : ℕ
  height : ℕ

/-- `GpsWindow::new`: everything zeroed, the image buffer empty. -/
noncomputable def GpsWindow.new : GpsWindow :=
  { image := [], points := [], query_lat := 0, query_lon := 0, lat_meters := 0,
    lon_meters := 0, nw_lat := 0, nw_lon := 0, x_tile := 0, y_tile := 0,
    zoom := 0, width := 0, height := 0 }

/-- The HTTP tile service (`reqwest::get` + `copy_to`): given zoom and
tile indices, the response bytes, or `none` for any transport failure. -/
abbrev FetchOracle := ℕ → ℤ → ℤ → Option (List ℕ)

/-- The PNG decoder of the `image` crate: `(width, height, pixel bytes)`
or `none` when the bytes do not decode. -/
abbrev PngOracle := List ℕ → Option (ℕ × ℕ × List ℕ)

/-- `imageproc::drawing::draw_filled_circle_mut`, abstracted: a new pixel
buffer from the old one and the marker position. -/
abbrev DrawOracle := List ℕ → ℤ × ℤ → List ℕ

/-- Error structure of the tile-engine results: `ok`, a recoverable
`Err` (propagated with `?` inside `query_*`), or a panic from
`unwrap`/`expect`/checked arithmetic. -/
inductive Res (α : Type)
  | ok (val : α)
  | err
  | panicked

namespace GpsWindow

/-- `GpsWindow::query_tile`: HTTP GET (`?` on failure) then PNG decode
(`expect`, so a decode failure panics). -/
def query_tile (fetch : FetchOracle) (png : PngOracle) (zoom : ℕ) (x y : ℤ) :
    Res OsmTile :=
  match fetch zoom x y with
  | none => .err
  | some bytes =>
    match png bytes with
    | none => .panicked
    | some (w, h, data) => .ok ⟨data, w, h⟩

/-- The `for ix in 0..row_length` loop of `query_map_row`: fetch
`row_length` tiles starting at column `x`, propagating the first failure. -/
def fetch_row (fetch : FetchOracle) (png : PngOracle) (zoom : ℕ) (y : ℤ) :
    ℤ → ℕ → Res (List OsmTile)
  | _, 0 => .ok []
  | x, n + 1 =>
    match query_tile fetch png zoom x y with
    | .err => .err
    | .panicked => .panicked
    | .ok t =>
      match fetch_row fetch png zoom y (x + 1) n with
      | .err => .err
      | .panicked => .panicked
      | .ok ts => .ok (t :: ts)

/-- `&tile.data[start_byte..end_byte]`: Rust slicing panics (`none`) when
the range exceeds the buffer. -/
def sliceBytes (l : List ℕ) (a b : ℕ) : Option (List ℕ) :=
  if a ≤ b ∧ b ≤ l.length then some ((l.take b).drop a) else none

/-- The inner `for tile in &tiles` loop of the stitch, for one `row_num`. -/
def rowSlice : List OsmTile → ℕ → Option (List ℕ)
  | [], _ => some []
  | t :: ts, rowNum =>
    match sliceBytes t.data (rowNum * 256 * 3) (rowNum * 256 * 3 + 256 * 3) with
    | none => none
    | some s =>
      match rowSlice ts rowNum with
      | none => none
      | some rest => some (s ++ rest)

/-- The outer `for row_num in 0..256` loop: rows `0, 1, ..., r - 1`
concatenated in order. -/
def stitchUpTo (tiles : List OsmTile) : ℕ → Option (List ℕ)
  | 0 => some []
  | r + 1 =>
    match stitchUpTo tiles r with
    | none => none
    | some prev =>
      match rowSlice tiles r with
      | none => none
      | some row => some (prev ++ row)

/-- `GpsWindow::query_map_row`: fetch a row of tiles, stitch the 256 pixel
rows, and report the buffer together with the width/height the source
stores into `self` (`tiles[0].width * row_length`, `tiles[0].height`). -/
def query_map_row (fetch : FetchOracle) (png : PngOracle) (zoom : ℕ)
    (x_tile y_tile : ℤ) (row_length : ℕ) : Res (List ℕ × ℕ × ℕ) :=
  match fetch_row fetch png zoom y_tile x_tile row_length with
  | .err => .err
  | .panicked => .panicked
  | .ok tiles =>
    match stitchUpTo tiles 256 with
    | none => .panicked
    | some map_row =>
      .ok (map_row, (tiles.headD ⟨[], 0, 0⟩).width * row_length,
        (tiles.headD ⟨[], 0, 0⟩).height)

/-- `GpsWindow::query_tiles`: the 3×3 neighbourhood.  `self.x_tile - 1` is
an unsigned subtraction, which in a debug build panics when `x_tile = 0`;
the row index `(self.y_tile as i32 + y) as u32` wraps.  After the loop the
height is tripled (`self.height *= 3`). -/
def query_tiles (fetch : FetchOracle) (png : PngOracle) (w : GpsWindow) :
    Res (List ℕ × ℕ × ℕ) :=
  if w.x_tile = 0 then .panicked
  else
    match query_map_row fetch png w.zoom (w.x_tile - 1) (wrap32 (w.y_tile + -1)) 3 with
    | .err => .err
    | .panicked => .panicked
    | .ok (r1, _, _) =>
      match query_map_row fetch png w.zoom (w.x_tile - 1) (wrap32 (w.y_tile + 0)) 3 with
      | .err => .err
      | .panicked => .panicked
      | .ok (r2, _, _) =>
        match query_map_row fetch png w.zoom (w.x_tile - 1) (wrap32 (w.y_tile + 1)) 3 with
        | .err => .err
        | .panicked => .panicked
        | .ok (r3, wd, ht) => .ok (r1 ++ r2 ++ r3, wd, ht * 3)

/-- The meters-per-degree-latitude series of gps.rs lines 165-167. -/
noncomputable def latMetersAt (lat : ℝ) : ℝ :=
  111132.92 - 559.82 * Real.cos (2 * (lat * Real.pi / 180))
    + 1.175 * Real.cos (4 * (lat * Real.pi / 180))
    - 0.0023 * Real.cos (6 * (lat * Real.pi / 180))

/-- The meters-per-degree-longitude series of gps.rs lines 168-169. -/
noncomputable def lonMetersAt (lat : ℝ) : ℝ :=
  111412.84 * Real.cos (lat * Real.pi / 180) - 93.5 * Real.cos (3 * (lat * Real.pi / 180))
    + 0.118 * Real.cos (5 * (lat * Real.pi / 180))

/-- The projection-state update at the end of `query_osm` (gps.rs lines
156-169): recover the northwestern corner from the reference tile index
and compute the meter scales at the query latitude. -/
noncomputable def finishProjection (w : GpsWindow) (nwx nwy : ℤ) : GpsWindow :=
  { w with
    nw_lon := nwLonOf w.zoom nwx
    nw_lat := nwLatOf w.zoom nwy
    lat_meters := latMetersAt w.query_lat
    lon_meters := lonMetersAt w.query_lat }

/-- The state right after `query_osm` stored the query coordinates and
computed the tile index (gps.rs lines 131-139). -/
noncomputable def queried (w : GpsWindow) (lat lon : ℝ) : GpsWindow :=
  { w with
    query_lat := lat
    query_lon := lon
    x_tile := xTileOf w.zoom lon
    y_tile := yTileOf w.zoom lat }

/-- `GpsWindow::query_osm`: store the query coordinates, compute the tile
index, fetch either the 3×3 neighbourhood (zoom > 0, reference tile
`(x_tile - 1, y_tile - 1)` — unsigned subtractions again) or the single
tile (zoom = 0, reference tile `(x_tile, y_tile)`),
`RgbImage::from_raw(..).unwrap()` the buffer (panics when the size does
not match), and finish the projection state. -/
noncomputable def query_osm (fetch : FetchOracle) (png : PngOracle) (w : GpsWindow)
    (lat lon : ℝ) : Res GpsWindow :=
  let xt := xTileOf w.zoom lon
  let yt := yTileOf w.zoom lat
  let w1 := queried w lat lon
  if 0 < w1.zoom then
    match query_tiles fetch png w1 with
    | .err => .err
    | .panicked => .panicked
    | .ok (bytes, wd, ht) =>
      if bytes.length = wd * ht * 3 then
        if xt = 0 ∨ yt = 0 then .panicked
        else .ok (finishProjection
          { w1 with image := bytes, width := wd, height := ht } (xt - 1) (yt - 1))
      else .panicked
  else
    match query_tile fetch png w1.zoom xt yt with
    | .err => .err
    | .panicked => .panicked
    | .ok t =>
      if t.data.length = t.width * t.height * 3 then
        .ok (finishProjection
          { w1 with image := t.data, width := t.width, height := t.height } xt yt)
      else .panicked

/-- `METERS_PER_PIXEL` (gps.rs lines 27-30), indexed by zoom level. -/
noncomputable def METERS_PER_PIXEL : List ℝ :=
  [156412.0, 78206.0, 39103.0, 19551.0, 9776.0, 4888.0, 2444.0, 1222.0, 610.984,
    305.492, 152.746, 76.373, 38.187, 19.093, 9.547, 4.773, 2.387, 1.193, 0.596,
    0.298, 0.149]

/-- `GpsWindow::meters_per_pixel`. -/
noncomputable def meters_per_pixel (w : GpsWindow) : ℝ :=
  METERS_PER_PIXEL.getD w.zoom 0 * Real.cos (w.query_lat * Real.pi / 180)

/-- `GpsWindow::coords_to_pixel`: offsets in pixels from the northwestern
corner (`.floor() as i32` on each axis). -/
noncomputable def coords_to_pixel (w : GpsWindow) (c : GpsData) : ℤ × ℤ :=
  (toI32 ⌊w.lon_meters * |c.lon - w.nw_lon| / meters_per_pixel w⌋,
   toI32 ⌊w.lat_meters * |c.lat - w.nw_lat| / meters_per_pixel w⌋)

/-- The first block of `GpsWindow::render`: when the image buffer is
still empty, re-query the tiles for the stored coordinates (the result of
which `render` will `.expect("Couldn't get tiles")`). -/
noncomputable def render_stage1 (fetch : FetchOracle) (png : PngOracle) (w : GpsWindow) :
    Res GpsWindow :=
  if w.image = [] then query_osm fetch png w w.query_lat w.query_lon else .ok w

/-- The received-fix block of `GpsWindow::render`: on the first fix set
`self.zoom = 16` and `query_osm(..).unwrap()` (a panic, `none`, when it
returns `Err`); then plot the fix and append it to the track. -/
noncomputable def render_fix (fetch : FetchOracle) (png : PngOracle) (draw : DrawOracle)
    (w1 : GpsWindow) (fix : GpsData) : Option GpsWindow :=
  match (if w1.zoom = 0 then query_osm fetch png { w1 with zoom := 16 } fix.lat fix.lon
         else .ok w1) with
  | .err => none
  | .panicked => none
  | .ok w2 =>
    let p := coords_to_pixel w2 fix
    some { w2 with points := w2.points ++ [p], image := draw w2.image p }

/-- One call of `GpsWindow::render` (the texture upload is GUI and
omitted).  `recv` is what `self.receiver.try_recv()` yields this tick;
`none` as a result is a panic of the render thread. -/
noncomputable def render (fetch : FetchOracle) (png : PngOracle) (draw : DrawOracle)
    (w : GpsWindow) (recv : Option GpsData) : Option GpsWindow :=
  match render_stage1 fetch png w with
  | .err => none
  | .panicked => none
  | .ok w1 =>
    match recv with
    | none => some w1
    | some fix => render_fix fetch png draw w1 fix

/-- A whole session: one `render` call per tick, stopping at a panic. -/
noncomputable def render_seq (fetch : FetchOracle) (png : PngOracle) (draw : DrawOracle) :
    GpsWindow → List (Option GpsData) → Option GpsWindow
  | w, [] => some w
  | w, r :: rs =>
    match render fetch png draw w r with
    | none => none
    | some w1 => render_seq fetch png draw w1 rs

end GpsWindow

/-! ## Concrete GPS oracles and states for witnesses -/

/-- A tile service whose every request fails. -/
def fetchFail : FetchOracle := fun _ _ _ => none

/-- A PNG decoder that rejects everything (never reached in the scenarios
below, which fail at the fetch already). -/
def pngFail : PngOracle := fun _ => none

/-- A drawing primitive that leaves the buffer unchanged. -/
def drawKeep : DrawOracle := fun img _ => img

/-- A window that already holds a stitched image at zoom 16 (steady state
after the first fix). -/
noncomputable def gpsReady : GpsWindow := { GpsWindow.new with image := [0], zoom := 16 }

/-- A window before its first fix (zoom still 0) whose placeholder image
is nonempty. -/
noncomputable def gpsImg : GpsWindow := { GpsWindow.new with image := [3] }

/-- A window at zoom 16 (as set by `render` on the first fix). -/
noncomputable def gpsZ16 : GpsWindow := { GpsWindow.new with zoom := 16 }

/-! ## Helper lemmas on the tile engine -/

theorem query_osm_ok_points {fetch : FetchOracle} {png : PngOracle} {w : GpsWindow}
    {lat lon : ℝ} {w' : GpsWindow}
    (h : GpsWindow.query_osm fetch png w lat lon = .ok w') : w'.points = w.points := by
  simp only [GpsWindow.query_osm] at h
  repeat' split at h
  all_goals
    first
      | exact Res.noConfusion h
      | (injection h with h
         subst h
         simp [GpsWindow.finishProjection, GpsWindow.queried])

theorem render_some_points {fetch : FetchOracle} {png : PngOracle} {draw : DrawOracle}
    {w : GpsWindow} {recv : Option GpsData} {w' : GpsWindow}
    (h : GpsWindow.render fetch png draw w recv = some w') :
    (recv = none → w'.points = w.points) ∧
    (∀ fix, recv = some fix → ∃ p, w'.points = w.points ++ [p]) := by
  unfold GpsWindow.render at h
  split at h
  · exact Option.noConfusion h
  · exact Option.noConfusion h
  · next w1 heq =>
    have hw1 : w1.points = w.points := by
      unfold GpsWindow.render_stage1 at heq
      by_cases himg : w.image = []
      · rw [if_pos himg] at heq
        exact query_osm_ok_points heq
      · rw [if_neg himg] at heq
        injection heq with heq
        subst heq
        rfl
    cases recv with
    | none =>
      have h2 : some w1 = some w' := h
      injection h2 with h2
      subst h2
      exact ⟨fun _ => hw1, fun fix hfix => Option.noConfusion hfix⟩
    | some fix =>
      have h2 : GpsWindow.render_fix fetch png draw w1 fix = some w' := h
      refine ⟨fun hc => Option.noConfusion hc, fun fx hfx => ?_⟩
      injection hfx with hfx
      subst hfx
      unfold GpsWindow.render_fix at h2
      split at h2
      · exact Option.noConfusion h2
      · exact Option.noConfusion h2
      · next w2 heq2 =>
        have hw2 : w2.points = w1.points := by
          by_cases hz : w1.zoom = 0
          · rw [if_pos hz] at heq2
            have := query_osm_ok_points heq2
            simpa using this
          · rw [if_neg hz] at heq2
            injection heq2 with heq2
            subst heq2
            rfl
        injection h2 with h2
        subst h2
        exact ⟨GpsWindow.coords_to_pixel w2 fix, by simp [hw2, hw1]⟩

theorem render_step_points {fetch : FetchOracle} {png : PngOracle} {draw : DrawOracle}
    {w : GpsWindow} {recv : Option GpsData} {w' : GpsWindow}
    (h : GpsWindow.render fetch png draw w recv = some w') :
    ∃ t, w'.points = w.points ++ t := by
  have hp := render_some_points h
  cases recv with
  | none => exact ⟨[], by rw [hp.1 rfl]; simp⟩
  | some fix =>
    obtain ⟨p, hq⟩ := hp.2 fix rfl
    exact ⟨[p], hq⟩

theorem render_seq_points {fetch : FetchOracle} {png : PngOracle} {draw : DrawOracle} :
    ∀ (rs : List (Option GpsData)) (w w3 : GpsWindow),
      GpsWindow.render_seq fetch png draw w rs = some w3 →
      ∃ t, w3.points = w.points ++ t := by
  intro rs
  induction rs with
  | nil =>
    intro w w3 h
    injection h with h
    subst h
    exact ⟨[], by simp⟩
  | cons r rs ih =>
    intro w w3 h
    unfold GpsWindow.render_seq at h
    split at h
    · exact absurd h (by simp)
    · next wmid heq =>
      obtain ⟨t1, ht1⟩ := render_step_points heq
      obtain ⟨t2, ht2⟩ := ih wmid w3 h
      exact ⟨t1 ++ t2, by rw [ht2, ht1, List.append_assoc]⟩

/-- Claim C9: the session track is append-only.  A render tick that
receives a fix appends exactly one point; one that receives nothing leaves
the track unchanged; and across any sequence of render ticks the earlier
track is a prefix of the later one — no operation removes, replaces or
reorders previously appended points. -/
theorem gps_track_append_only (fetch : FetchOracle) (png : PngOracle) (draw : DrawOracle)
    (w : GpsWindow) (recv : Option GpsData) (fix : GpsData)
    (rs : List (Option GpsData)) (w1 w2 w3 : GpsWindow) :
    (GpsWindow.render fetch png draw w recv = some w1 →
      ∃ t, w1.points = w.points ++ t) ∧
    (GpsWindow.render fetch png draw w (some fix) = some w2 →
      ∃ p, w2.points = w.points ++ [p]) ∧
    (GpsWindow.render_seq fetch png draw w rs = some w3 →
      ∃ t, w3.points = w.points ++ t) :=
  ⟨fun h => render_step_points h,
   fun h => (render_some_points h).2 fix rfl,
   fun h => render_seq_points rs w w3 h⟩

/-- Witness for C9: a steady-state window receiving one fix appends
exactly one point. -/
theorem gps_track_append_only_witness :
    ∃ w', GpsWindow.render fetchFail pngFail drawKeep gpsReady (some ⟨0, 0⟩) = some w' ∧
      ∃ p, w'.points = gpsReady.points ++ [p] :=
  ⟨_, rfl,
    (gps_track_append_only fetchFail pngFail drawKeep gpsReady (some ⟨0, 0⟩) ⟨0, 0⟩
      [] gpsReady _ gpsReady).2.1 rfl⟩

theorem query_osm_allfail_zoom_pos {fetch : FetchOracle} {png : PngOracle}
    {w : GpsWindow} {lat lon : ℝ} (hfail : ∀ z x y, fetch z x y = none)
    (hz : 0 < w.zoom) (hx : xTileOf w.zoom lon ≠ 0) :
    GpsWindow.query_osm fetch png w lat lon = .err := by
  unfold GpsWindow.query_osm
  rw [if_pos (by simpa [GpsWindow.queried] using hz)]
  have ht : GpsWindow.query_tiles fetch png (GpsWindow.queried w lat lon) = .err := by
    unfold GpsWindow.query_tiles
    rw [if_neg (by simpa [GpsWindow.queried] using hx)]
    simp [GpsWindow.query_map_row, GpsWindow.fetch_row, GpsWindow.query_tile, hfail]
  rw [ht]

theorem xTileOf_16_zero_ne : xTileOf 16 (0 : ℝ) ≠ 0 := by
  unfold xTileOf
  have h1 : (1 : ℤ) ≤ ⌊((0 : ℝ) + 180) / 360 * 2 ^ 16⌋ := by
    rw [Int.le_floor]
    push_cast
    norm_num
  have h2 := toU32_pos (lt_of_lt_of_le zero_lt_one h1)
  omega

/-- Counterexample for C2: the GPS session does not survive a tile-fetch
failure.  With every HTTP fetch failing, the very first fix makes
`render` panic (`query_osm(..).unwrap()` / `.expect("Couldn't get
tiles")`): the session terminates instead of logging and skipping the
redraw. -/
theorem gps_session_crash_counterexample :
    GpsWindow.render fetchFail pngFail drawKeep GpsWindow.new (some ⟨0, 0⟩) = none := by
  have hq : GpsWindow.query_osm fetchFail pngFail GpsWindow.new
      GpsWindow.new.query_lat GpsWindow.new.query_lon = .err := by
    unfold GpsWindow.query_osm
    rw [if_neg (by simp [GpsWindow.queried, GpsWindow.new])]
    simp [GpsWindow.query_tile, fetchFail]
  have hs : GpsWindow.render_stage1 fetchFail pngFail GpsWindow.new = .err := by
    unfold GpsWindow.render_stage1
    rw [if_pos (show GpsWindow.new.image = [] from rfl)]
    exact hq
  unfold GpsWindow.render
  rw [hs]

/-- Claim C2 (amended): `query_osm` itself does surface a tile-fetch
failure as a recoverable `Err` for that one query, but `GpsWindow::render`
unwraps it (`.unwrap()` on the first fix, `.expect(..)` on the empty-image
path), so a tile-fetch failure panics and terminates the GPS session
instead of being skipped for the frame. -/
theorem gps_fetch_error_recoverable_but_unwrapped (fetch : FetchOracle) (png : PngOracle)
    (draw : DrawOracle) (w : GpsWindow) (fix : GpsData)
    (hfail : ∀ z x y, fetch z x y = none) (hz : w.zoom = 0) (himg : w.image ≠ []) :
    GpsWindow.query_osm fetch png w w.query_lat w.query_lon = .err ∧
    (GpsWindow.query_osm fetch png { w with zoom := 16 } fix.lat fix.lon = .err →
      GpsWindow.render fetch png draw w (some fix) = none) := by
  constructor
  · unfold GpsWindow.query_osm
    rw [if_neg (by simp [GpsWindow.queried, hz])]
    simp [GpsWindow.query_tile, hfail]
  · intro hq
    have hs : GpsWindow.render_stage1 fetch png w = .ok w := by
      unfold GpsWindow.render_stage1
      rw [if_neg himg]
    unfold GpsWindow.render
    rw [hs]
    show GpsWindow.render_fix fetch png draw w fix = none
    unfold GpsWindow.render_fix
    rw [if_pos hz, hq]

/-- Witness for the amended C2: with every fetch failing, the pre-fix
query returns `Err`, and a first fix makes `render` panic because that
`Err` is unwrapped. -/
theorem gps_fetch_error_recoverable_but_unwrapped_witness :
    GpsWindow.query_osm fetchFail pngFail gpsImg gpsImg.query_lat gpsImg.query_lon = .err ∧
    GpsWindow.render fetchFail pngFail drawKeep gpsImg (some ⟨0, 0⟩) = none := by
  have hthm := gps_fetch_error_recoverable_but_unwrapped fetchFail pngFail drawKeep gpsImg
    ⟨0, 0⟩ (fun _ _ _ => rfl) rfl (by simp [gpsImg, GpsWindow.new])
  refine ⟨hthm.1, hthm.2 ?_⟩
  exact query_osm_allfail_zoom_pos (fun _ _ _ => rfl) (by simp [gpsImg, GpsWindow.new])
    (by simpa [gpsImg, GpsWindow.new] using xTileOf_16_zero_ne)

theorem xTileOf_16_neg180 : xTileOf 16 (-180 : ℝ) = 0 := by
  unfold xTileOf
  have h0 : ((-180 : ℝ) + 180) / 360 * 2 ^ 16 = 0 := by norm_num
  rw [h0, Int.floor_zero]
  rfl

/-- Claim C10: the tile query is not total over valid fixes.  At a nonzero
zoom, a fix whose tile index has `x_tile = 0` (for example longitude
-180) makes `query_tiles` evaluate `self.x_tile - 1` on a `u32`, which
underflows and panics — for any tile service and decoder, no raster and no
recoverable error is produced.  A fix with `y_tile = 0` can never yield a
stitched raster either: either a fetch fails first (`Err`), or line 147's
`self.y_tile - 1` underflows and panics. -/
theorem gps_tile_query_underflow (fetch : FetchOracle) (png : PngOracle)
    (w : GpsWindow) (lat lon : ℝ) (hz : 0 < w.zoom)
    (h : xTileOf w.zoom lon = 0 ∨ yTileOf w.zoom lat = 0) :
    (∀ w', GpsWindow.query_osm fetch png w lat lon ≠ .ok w') ∧
    (xTileOf w.zoom lon = 0 → GpsWindow.query_osm fetch png w lat lon = .panicked) := by
  have hpanic : xTileOf w.zoom lon = 0 →
      GpsWindow.query_osm fetch png w lat lon = .panicked := by
    intro hx
    unfold GpsWindow.query_osm
    rw [if_pos (by simpa [GpsWindow.queried] using hz)]
    have ht : GpsWindow.query_tiles fetch png (GpsWindow.queried w lat lon) = .panicked := by
      unfold GpsWindow.query_tiles
      rw [if_pos (by simpa [GpsWindow.queried] using hx)]
    rw [ht]
  refine ⟨?_, hpanic⟩
  intro w' hok
  rcases h with hx | hy
  · rw [hpanic hx] at hok
    exact absurd hok (by simp)
  · unfold GpsWindow.query_osm at hok
    rw [if_pos (by simpa [GpsWindow.queried] using hz)] at hok
    split at hok
    · exact absurd hok (by simp)
    · exact absurd hok (by simp)
    · next bytes wd ht _ =>
      split at hok
      · split at hok
        · exact absurd hok (by simp)
        · next hcond => exact hcond (Or.inr hy)
      · exact absurd hok (by simp)

/-- Witness for C10: at zoom 16 a fix at longitude -180 maps to
`x_tile = 0` and the tile query panics. -/
theorem gps_tile_query_underflow_witness :
    GpsWindow.query_osm fetchFail pngFail gpsZ16 0 (-180) = .panicked := by
  have hx : xTileOf gpsZ16.zoom (-180 : ℝ) = 0 := by
    simpa [gpsZ16, GpsWindow.new] using xTileOf_16_neg180
  exact (gps_tile_query_underflow fetchFail pngFail gpsZ16 0 (-180)
    (by simp [gpsZ16, GpsWindow.new]) (Or.inl hx)).2 hx

end SensorView
